import Mathlib

/-!
Shallow embedding of the hyperhyperspace core state-sync code:
the TerminalOpsSyncAgent, the StateGossipAgent and the UndoOp model,
together with theorems about the behaviour of the embedded functions.

Hashes, endpoints and agent ids are modelled as strings; JS `Map`s are
modelled as association lists that preserve insertion order; JS numbers
used as timestamps are modelled as integers.
-/

namespace HHS

abbrev Hash := String
abbrev Endpoint := String
abbrev AgentId := String

/-! ## UndoOp (src/data/model/UndoOp.ts) -/

/-- A reference to a reversible mutation op, as seen by the `UndoOp`
constructor: all the constructor inspects is whether the argument is
itself an `UndoOp` (the `instanceof UndoOp` test), so we keep that flag
plus an identifying hash. -/
structure ReversibleOpRef where
  isUndo : Bool
  opHash : Hash
deriving DecidableEq, Repr

/-- The fields the `UndoOp` constructor stores on the freshly built op:
`target` (passed to `super`), `causalOps` (the singleton hashed set built
from `targetOp` and passed to `super`), `targetOp` and `cascadeOf`. -/
structure UndoOpData where
  target    : Option Hash
  causalOps : Option (List ReversibleOpRef)
  targetOp  : Option ReversibleOpRef
  cascadeOf : Option ReversibleOpRef
deriving DecidableEq, Repr

/-- Model of `UndoOp.constructor(target?, targetOp?, cascadeOf?)`: calls
`super(target, targetOp === undefined ? undefined : new HashedSet([targetOp]))`,
then throws when `targetOp instanceof UndoOp`, and otherwise stores
`targetOp` and `cascadeOf` when they are given. -/
def mkUndoOp (target : Option Hash) (targetOp : Option ReversibleOpRef)
    (cascadeOf : Option ReversibleOpRef) : Except String UndoOpData :=
  let causalOps : Option (List ReversibleOpRef) :=
    match targetOp with
    | none => none
    | some op => some [op]
  if (match targetOp with | none => false | some op => op.isUndo) then
    Except.error "an undo op cannot be undone this way, please just re-issue the original op"
  else
    Except.ok { target := target, causalOps := causalOps,
                targetOp := targetOp, cascadeOf := cascadeOf }

/-! ## StateGossipAgent: previous-states cache
     (`cachePreviousStateHash`, from StateGossipAgent.ts) -/

/-- Model of `StateGossipAgent.cachePreviousStateHash`: remove the state hash if it
is already cached (`indexOf` + `splice(idx, 1)` removes the first
occurrence), truncate the array to `maxCachedPrevStates - 1` entries
(`splice(maxLength, toDelete)` keeps the first `maxLength`), and `unshift`
the new hash at the front. -/
def cachePreviousStateHash (maxCachedPrevStates : Nat) (state : Hash)
    (prevStates : List Hash) : List Hash :=
  let afterRemove := prevStates.erase state
  let maxLength := maxCachedPrevStates - 1
  let afterTrunc :=
    if afterRemove.length > maxLength then afterRemove.take maxLength else afterRemove
  state :: afterTrunc

/-- The cache contents after a whole sequence of `cachePreviousStateHash`
calls, starting from the empty cache (a fresh agent has no entry in
`previousStatesCache`). -/
def cacheSeq (maxCachedPrevStates : Nat) (calls : List Hash) : List Hash :=
  calls.foldl (fun acc s => cachePreviousStateHash maxCachedPrevStates s acc) []

/-! ## StateGossipAgent: gossiping a new local state
     (`localAgentStateUpdate` / `gossipNewState`, from StateGossipAgent.ts) -/

/-- The tunable gossip parameters, with `peerGossipFraction` and
`peerGossipProb` modelled as rationals (the defaults `0.2` and `0.5` are
exactly representable, and `10 * 0.2` rounds to exactly `2` in binary
floating point, so the rational model agrees with the JS arithmetic at the
parameters of interest). -/
structure GossipParams where
  peerGossipFraction   : ℚ
  peerGossipProb       : ℚ
  minGossipPeers       : Nat
  maxCachedPrevStates  : Nat
  newStateErrorRetries : Nat
  newStateErrorDelay   : Nat
  maxGossipDelay       : Nat

/-- The default `params` of `StateGossipAgent`. -/
def defaultGossipParams : GossipParams :=
  { peerGossipFraction   := 1/5,
    peerGossipProb       := 1/2,
    minGossipPeers       := 4,
    maxCachedPrevStates  := 50,
    newStateErrorRetries := 3,
    newStateErrorDelay   := 1500,
    maxGossipDelay       := 5000 }

/-- The number of peers `gossipNewState` targets:
`count = ceil(maxPeers * peerGossipFraction)`, raised to `minGossipPeers`
when below it, then clamped to the number of connected peers. -/
def gossipTargetCount (maxPeers : Nat) (params : GossipParams) (numPeers : Nat) : Nat :=
  let count0 : Int := Int.ceil ((maxPeers : ℚ) * params.peerGossipFraction)
  let count1 : Nat :=
    if count0 < (params.minGossipPeers : Int) then params.minGossipPeers else count0.toNat
  if count1 > numPeers then numPeers else count1

/-- Model of `StateGossipAgent.gossipNewState`: after shuffling the peer array, the
first `count` peers are sent a `send-state-object` message, skipping the
`sender` endpoint when the update was re-gossiped. `sendStateObject` only
emits a message when a local state object for the agent exists
(`haveStateObject`); the result is the list of endpoints that are sent a
`send-state-object` message. The shuffled peer array is taken as an
argument (`Shuffle.array` permutes it in place). -/
def gossipNewState (maxPeers : Nat) (params : GossipParams) (shuffledPeers : List Endpoint)
    (sender : Option Endpoint) (haveStateObject : Bool) : List Endpoint :=
  let count := gossipTargetCount maxPeers params shuffledPeers.length
  if haveStateObject then
    (shuffledPeers.take count).filter (fun p => sender != some p)
  else []

/-! ## StateGossipAgent: error retries in `notifyAgentOfStateArrival` -/

/-- Result of one call to a tracked agent `receiveRemoteState`: it either
returns the `isNew` boolean or throws. -/
inductive AttemptResult where
  | ok (isNew : Bool)
  | err
deriving DecidableEq, Repr

/-- Model of `StateGossipAgent.notifyAgentOfStateArrival`, retry structure.
`attempts n` is the outcome of the `(n+1)`-st call to
`stateAgent.receiveRemoteState`. The code calls once inside `try`; on a
throw it enters `while (valueReady === false && retries < newStateErrorRetries)`,
whose body performs one more call and unconditionally sets
`valueReady = true`, so the loop body runs at most once; that second call
is not guarded by any `try`, so if it throws the exception escapes the
function (`retries` is never incremented). When the loop is never entered
(`newStateErrorRetries = 0`) the function throws
`Error(..)` because `valueReady` is still false. -/
def notifyAgentOfStateArrival (newStateErrorRetries : Nat)
    (attempts : Nat → AttemptResult) : Except Unit Bool :=
  match attempts 0 with
  | AttemptResult.ok b => Except.ok b
  | AttemptResult.err =>
    if 0 < newStateErrorRetries then
      match attempts 1 with
      | AttemptResult.ok b => Except.ok b
      | AttemptResult.err => Except.error ()
    else
      Except.error ()

/-- Modelled from the spec: the retry discipline the spec describes for
`receiveRemoteState` errors (the concrete retry loop is in
StateGossipAgent.ts, but the spec text, sec. 4.4, prescribes retrying the
call up to `newStateErrorRetries` times after a failed first attempt,
succeeding as soon as one attempt returns). `notifyRetrySpecAux i fuel`
makes attempt `i` and, on a throw, has `fuel` further attempts left. -/
def notifyRetrySpecAux (attempts : Nat → AttemptResult) : Nat → Nat → Except Unit Bool
  | i, fuel =>
    match attempts i with
    | AttemptResult.ok b => Except.ok b
    | AttemptResult.err =>
      match fuel with
      | 0 => Except.error ()
      | fuel' + 1 => notifyRetrySpecAux attempts (i + 1) fuel'

/-- Modelled from the spec: retry `receiveRemoteState` up to
`newStateErrorRetries` times after the failed first attempt. -/
def notifyRetrySpec (newStateErrorRetries : Nat)
    (attempts : Nat → AttemptResult) : Except Unit Bool :=
  notifyRetrySpecAux attempts 0 newStateErrorRetries

/-- A concrete behaviour of `receiveRemoteState` across successive calls:
the first two calls throw, every later call succeeds reporting a new
state. -/
def attemptsFailTwice : Nat → AttemptResult :=
  fun n => if n < 2 then AttemptResult.err else AttemptResult.ok true

/-! ## StateGossipAgent: `receiveStateObject` reply logic -/

/-- Model of `StateGossipAgent.receiveStateObject`: whether a `send-state-object`
reply carrying our own state is sent back to the sender. `validated` is
the result of `stateObj.validate`, `prevStatesCache` the cached superseded
state hashes for the agent, `notify` the outcome of
`notifyAgentOfStateArrival` (throws are caught and only logged),
`localStateHash` the current `localState` entry for the agent,
`haveLocalStateObject` whether `localStateObjects` holds a state object
for the agent (`sendStateObject` emits nothing otherwise), and `stateHash`
the hash of the received state object. -/
def receiveStateObjectSendsOwnState (validated : Bool) (prevStatesCache : List Hash)
    (notify : Except Unit Bool) (localStateHash : Option Hash)
    (haveLocalStateObject : Bool) (stateHash : Hash) : Bool :=
  if validated then
    let cacheHit := prevStatesCache.contains stateHash
    let receivedOldState :=
      if cacheHit then true
      else
        match notify with
        | Except.ok isNew => !isNew
        | Except.error _ => false
    if receivedOldState && !(localStateHash == some stateHash) then
      haveLocalStateObject
    else
      false
  else
    false

/-! ## TerminalOpsSyncAgent: data model -/

/-- One entry in a literal `dependencies` list: the hash of the dependency
and its type (`subobject` or `reference`). -/
structure Dependency where
  hash : Hash
  depType : String
deriving DecidableEq, Repr

/-- The part of a stored literal inspected by the sync agent: its
dependency list. -/
structure Literal where
  dependencies : List Dependency
deriving DecidableEq, Repr

/-- The view of an object returned by `store.load` that
`shouldAcceptMutationOp` inspects: its class name and the hash of its
`targetObject` reference (absent for objects that are not mutation ops). -/
structure StoredObject where
  className : String
  targetObjectHash : Option Hash
deriving DecidableEq, Repr

/-- The local store as the sync agent consumes it: `loadLiteral` and
`load` keyed by hash. -/
structure StoreModel where
  literals : Hash → Option Literal
  objects : Hash → Option StoredObject

/-- The per-agent configuration: the hash of the mutable object being
synchronized and the accepted mutation op class names. -/
structure SyncAgentCfg where
  objHash : Hash
  acceptedMutationOpClasses : List String

/-- Model of `TerminalOpsSyncAgent.shouldAcceptMutationOp`: the op targets the
synchronized object and its class is accepted. -/
def shouldAcceptMutationOp (cfg : SyncAgentCfg) (op : StoredObject) : Bool :=
  (some cfg.objHash == op.targetObjectHash) &&
    (cfg.acceptedMutationOpClasses.contains op.className)

/-- A `request-objs` entry: the requested hash and its dependency chain. -/
structure ObjectRequest where
  hash : Hash
  dependencyChain : List Hash
deriving DecidableEq, Repr

/-! ## TerminalOpsSyncAgent: `tryToSendObjects` (claim C1) -/

/-- Outcome of walking a `dependencyChain` in `tryToSendObjects`: a link
literal absent from the store (`missing`), a link whose literal does not
list the previous hash among its dependencies (`invalid`), or success with
the hash the chain ends at (the candidate op). -/
inductive ChainWalk where
  | missing : ChainWalk
  | invalid : ChainWalk
  | ok : Hash → ChainWalk
deriving DecidableEq, Repr

/-- The dependency-chain walk of `tryToSendObjects`: starting from the
requested hash, each chain entry must have a stored literal whose
`dependencies` list contains the hash walked so far. -/
def followDependencyChain (store : StoreModel) (opHash : Hash) :
    List Hash → ChainWalk
  | [] => ChainWalk.ok opHash
  | depHash :: rest =>
    match store.literals depHash with
    | none => ChainWalk.missing
    | some depLiteral =>
      if depLiteral.dependencies.any (fun dep => dep.hash == opHash) then
        followDependencyChain store depHash rest
      else
        ChainWalk.invalid

/-- What `tryToSendObjects` does with a single request: drop it
(chain invalid, or the resolved op unacceptable), record it for later
(`sendLater`: some object along the way is not in the store while
everything seen so far was consistent), or serialize the requested object
into the shared context (`sent`). -/
inductive RequestOutcome where
  | dropped : RequestOutcome
  | sendLater : RequestOutcome
  | sent : RequestOutcome
deriving DecidableEq, Repr

/-- The per-request logic of `tryToSendObjects`: follow the dependency
chain; if it resolves, load the op it ends at and check
`shouldAcceptMutationOp`; if the op is valid, load the requested object
itself and add it to the context. -/
def processObjectRequest (cfg : SyncAgentCfg) (store : StoreModel)
    (req : ObjectRequest) : RequestOutcome :=
  match followDependencyChain store req.hash req.dependencyChain with
  | ChainWalk.missing => RequestOutcome.sendLater
  | ChainWalk.invalid => RequestOutcome.dropped
  | ChainWalk.ok opHash =>
    match store.objects opHash with
    | none => RequestOutcome.sendLater
    | some op =>
      if shouldAcceptMutationOp cfg op then
        match store.objects req.hash with
        | none => RequestOutcome.sendLater
        | some _ => RequestOutcome.sent
      else
        RequestOutcome.dropped

/-- Model of `TerminalOpsSyncAgent.tryToSendObjects`: the root hashes serialized
into the reply context (first component) and the requests scheduled for
later (second component, the function result in the code). -/
def tryToSendObjects (cfg : SyncAgentCfg) (store : StoreModel)
    (requestedObjects : List ObjectRequest) : List Hash × List ObjectRequest :=
  requestedObjects.foldl
    (fun acc req =>
      match processObjectRequest cfg store req with
      | RequestOutcome.sent => (acc.1 ++ [req.hash], acc.2)
      | RequestOutcome.sendLater => (acc.1, acc.2 ++ [req])
      | RequestOutcome.dropped => acc)
    ([], [])

/-! ## TerminalOpsSyncAgent: `receiveObjects` missing-dependency handling
     (claim C2) -/

/-- The missing-dependency loop of `TerminalOpsSyncAgent.receiveObjects`:
for each `(depHash, depChain)` produced by `context.findMissingDeps`, the
dependency is folded into the context when `store.load(depHash)` yields an
object whose keyed hash under the request `secret` equals the supplied
ownership proof, and is otherwise pushed onto `toRequest`.
`storeHolds` models whether the receiver store holds a hash, and
`keyedHash h secret` the value of `storedObject.hash(secret)` for the
object stored at `h` (well defined because the store is
content-addressed). Returns `(toRequest, foldedIntoContext)`. -/
def processMissingDeps (storeHolds : Hash → Bool)
    (keyedHash : Hash → Option String → Hash)
    (ownershipProofForHash : Hash → Option Hash) (secret : Option String)
    (missingDeps : List (Hash × List Hash)) : List ObjectRequest × List Hash :=
  missingDeps.foldl
    (fun acc dep =>
      if !(storeHolds dep.1) || (some (keyedHash dep.1 secret) != ownershipProofForHash dep.1) then
        (acc.1 ++ [{ hash := dep.1, dependencyChain := dep.2 }], acc.2)
      else
        (acc.1, acc.2 ++ [dep.1]))
    ([], [])

/-! ## TerminalOpsSyncAgent: housekeeping sweep (claim C3) -/

/-- An entry of the `incompleteOps` table: the sending endpoint, the
hashes of the still-missing dependencies (the keys of `missingObjects`)
and the entry deadline (`timeout`, an absolute timestamp). -/
structure IncompleteOpModel where
  source : Endpoint
  missingObjects : List Hash
  timeout : Int
deriving DecidableEq, Repr

/-- The `incompleteOps` section of the periodic `opShippingInterval`
sweep: the code collects every entry satisfying
`incompleteOp.timeout > now`, removes its reverse-index pairs from
`opsForMissingObj` (a pair `(depHash, opHash)` for each missing
dependency), and deletes it from `incompleteOps`. Returns the surviving
`incompleteOps` entries and the surviving reverse-index pairs. -/
def sweepIncompleteOps (now : Int) (incompleteOps : List (Hash × IncompleteOpModel))
    (opsForMissingObj : List (Hash × Hash)) :
    List (Hash × IncompleteOpModel) × List (Hash × Hash) :=
  let timeouted := incompleteOps.filter (fun e => decide (e.2.timeout > now))
  let newRevIdx := opsForMissingObj.filter
    (fun p => !(timeouted.any (fun e => e.1 == p.2 && e.2.missingObjects.contains p.1)))
  (incompleteOps.filter (fun e => !((timeouted.map Prod.fst).contains e.1)), newRevIdx)

/-! ## TerminalOpsSyncAgent: request backpressure (claim C6) -/

/-- The per-endpoint record of a pending object movement. -/
structure MovementData where
  dependencyChain : List Hash
  secret : String
  timeout : Int
deriving DecidableEq, Repr

/-- The endpoint map of one `ObjectMovements` entry
(`Map` from `Endpoint` to a record of timeout, secret and dependencyChain), as an association
list in insertion order. -/
abbrev EndpointMovements := List (Endpoint × MovementData)

/-- Model of `ObjectMovements = Map<Hash, Map<Endpoint, ...>>`. Only `get` and
`set` are used on the outer map, so it is modelled extensionally as a
function from hashes to endpoint maps; an absent key is the empty map
(the code materializes an empty inner `Map` on first access, which is
observationally the same). -/
abbrev ObjectMovementsModel := Hash → EndpointMovements

/-- Model of `TerminalOpsSyncAgent.insertObjectMovement`: fetch (or create) the
endpoint map for `objHash`; if the endpoint is already present return
`false` and change nothing, otherwise record the movement with deadline
`now + timeout * 1000` and return `true`. -/
def insertObjectMovement (allMovements : ObjectMovementsModel) (endpoint : Endpoint)
    (objHash : Hash) (dependencyChain : List Hash) (secret : String)
    (timeout : Int) (now : Int) : Bool × ObjectMovementsModel :=
  let movement := allMovements objHash
  if (movement.lookup endpoint).isSome then
    (false, allMovements)
  else
    (true,
     fun h =>
       if h = objHash then
         movement ++ [(endpoint, { dependencyChain := dependencyChain, secret := secret,
                                   timeout := now + timeout * 1000 })]
       else allMovements h)

/-- The loop body of `TerminalOpsSyncAgent.sendRequestObjsMessage` for a
single request: skip it when the hash was already requested from this
destination (`alreadyRequested`) or two pending requests for it exist
(`pendingReqs < 2` fails); otherwise register it in `incomingObjects` via
`expectIncomingObject` (which calls `insertObjectMovement` with
`receiveTimeout`) and, when registration succeeds, add it to the requests
going into the outgoing `request-objs` message. -/
def sendRequestObjsStep (destination : Endpoint) (secret : String)
    (receiveTimeout : Int) (now : Int) (acc : ObjectMovementsModel × List ObjectRequest)
    (req : ObjectRequest) : ObjectMovementsModel × List ObjectRequest :=
  let alreadyRequested := ((acc.1 req.hash).lookup destination).isSome
  let pendingReqs := (acc.1 req.hash).length
  if !alreadyRequested && pendingReqs < 2 then
    let r := insertObjectMovement acc.1 destination req.hash req.dependencyChain
               secret receiveTimeout now
    if r.1 then (r.2, acc.2 ++ [req]) else (r.2, acc.2)
  else
    acc

/-- Model of `TerminalOpsSyncAgent.sendRequestObjsMessage`: fold the per-request
step over the requested objects. Returns the updated `incomingObjects`
table and the requests actually placed in the outgoing `request-objs`
message. -/
def sendRequestObjsMessage (incomingObjects : ObjectMovementsModel)
    (destination : Endpoint) (secret : String) (receiveTimeout : Int) (now : Int)
    (reqs : List ObjectRequest) : ObjectMovementsModel × List ObjectRequest :=
  reqs.foldl (sendRequestObjsStep destination secret receiveTimeout now)
    (incomingObjects, [])

/-! ## TerminalOpsSyncAgent: `receiveRemoteState` (claim C9) -/

/-- A received terminal-ops state object, with the hash computed from it
(`state.hash()`) carried alongside its terminal op list. -/
structure TerminalOpsStateModel where
  stateHash : Hash
  terminalOps : List Hash
deriving DecidableEq, Repr

/-- The sync messages `receiveRemoteState` may emit. -/
inductive SyncMsg where
  | requestState : SyncMsg
  | requestObjs : List ObjectRequest → SyncMsg
deriving DecidableEq, Repr

/-- The terminal-ops loop of `TerminalOpsSyncAgent.receiveRemoteState`:
ops already being fetched (present in `incompleteOps`) are skipped; of the
rest, those absent from the store are collected into `opsToFetch` (first
component) and a stored op failing `shouldAcceptMutationOp` sets `badOps`
(second component). -/
def receiveRemoteStateLoop (cfg : SyncAgentCfg) (store : StoreModel)
    (incompleteOps : List Hash) (terminalOps : List Hash) : List Hash × Bool :=
  terminalOps.foldl
    (fun acc opHash =>
      if incompleteOps.contains opHash then acc
      else
        match store.objects opHash with
        | none => (acc.1 ++ [opHash], acc.2)
        | some op => (acc.1, acc.2 || !(shouldAcceptMutationOp cfg op)))
    ([], false)

/-- Model of `TerminalOpsSyncAgent.receiveRemoteState`: with a state object, check
the computed hash against the advertised one, run the terminal-ops loop,
send a `request-objs` message (with empty dependency chains) when there
are ops to fetch and no bad op was seen, and return
`opsToFetch.length > 0 && !badOps`. With no state object, send
`request-state` when the advertised hash differs from our own state hash
and return `false`. -/
def terminalOpsReceiveRemoteState (cfg : SyncAgentCfg) (store : StoreModel)
    (incompleteOps : List Hash) (localStateHash : Option Hash)
    (advertisedStateHash : Hash) (state : Option TerminalOpsStateModel) :
    Bool × List SyncMsg :=
  match state with
  | some st =>
    if st.stateHash != advertisedStateHash then
      (false, [])
    else
      let r := receiveRemoteStateLoop cfg store incompleteOps st.terminalOps
      let msgs :=
        if r.2 then []
        else if 0 < r.1.length then
          [SyncMsg.requestObjs (r.1.map (fun h => { hash := h, dependencyChain := [] }))]
        else []
      (decide (0 < r.1.length) && !r.2, msgs)
  | none =>
    if some advertisedStateHash != localStateHash then
      (false, [SyncMsg.requestState])
    else
      (false, [])

/-! # Theorems -/

lemma cachePreviousStateHash_length_le (maxCached : Nat) (hmax : 1 ≤ maxCached)
    (state : Hash) (prevStates : List Hash) :
    (cachePreviousStateHash maxCached state prevStates).length ≤ maxCached := by
  unfold cachePreviousStateHash
  simp only [List.length_cons]
  by_cases h : (prevStates.erase state).length > maxCached - 1
  · simp only [h, if_pos]
    have := List.length_take_le (maxCached - 1) (prevStates.erase state)
    omega
  · simp only [h, if_neg, not_false_iff]
    omega

lemma cachePreviousStateHash_nodup (maxCached : Nat) (state : Hash)
    (prevStates : List Hash) (hnd : prevStates.Nodup) :
    (cachePreviousStateHash maxCached state prevStates).Nodup := by
  unfold cachePreviousStateHash
  have herase : (prevStates.erase state).Nodup := hnd.erase state
  have hmem : state ∉ prevStates.erase state := hnd.not_mem_erase
  by_cases h : (prevStates.erase state).length > maxCached - 1
  · simp only [h, if_pos]
    refine List.nodup_cons.mpr ⟨?_, herase.sublist (List.take_sublist _ _)⟩
    intro hc
    exact hmem (List.take_subset _ _ hc)
  · simp only [h, if_neg, not_false_iff]
    exact List.nodup_cons.mpr ⟨hmem, herase⟩

lemma cacheSeq_invariant (maxCached : Nat) (hmax : 1 ≤ maxCached) (calls : List Hash) :
    (cacheSeq maxCached calls).length ≤ maxCached ∧ (cacheSeq maxCached calls).Nodup := by
  suffices h : ∀ (acc : List Hash), acc.length ≤ maxCached → acc.Nodup →
      (calls.foldl (fun acc s => cachePreviousStateHash maxCached s acc) acc).length ≤ maxCached ∧
      (calls.foldl (fun acc s => cachePreviousStateHash maxCached s acc) acc).Nodup by
    exact h [] (by simp) List.nodup_nil
  induction calls with
  | nil => intro acc h1 h2; exact ⟨h1, h2⟩
  | cons s rest ih =>
    intro acc _ h2
    simp only [List.foldl_cons]
    exact ih _ (cachePreviousStateHash_length_le maxCached hmax s acc)
      (cachePreviousStateHash_nodup maxCached s acc h2)

lemma cachePreviousStateHash_head (maxCached : Nat) (s : Hash) (prev : List Hash) :
    (cachePreviousStateHash maxCached s prev).head? = some s := rfl

lemma cachePreviousStateHash_count (maxCached : Nat) (s : Hash) (prev : List Hash)
    (hnd : prev.Nodup) : (cachePreviousStateHash maxCached s prev).count s = 1 := by
  unfold cachePreviousStateHash
  have hmem : s ∉ prev.erase s := hnd.not_mem_erase
  have hnotmem : s ∉ (if (prev.erase s).length > maxCached - 1 then
      (prev.erase s).take (maxCached - 1) else prev.erase s) := by
    by_cases h : (prev.erase s).length > maxCached - 1
    · simp only [h, if_pos]
      intro hc
      exact hmem (List.take_subset _ _ hc)
    · simpa [h] using hmem
  simp [List.count_cons, List.count_eq_zero.mpr hnotmem]

/-- C8: the per-agent previous-states cache is a bounded deduplicated
deque: after any sequence of `cachePreviousStateHash` calls it holds at
most `maxCachedPrevStates` hashes with no duplicates, the most recently
cached hash sits at the front, and caching a hash keeps exactly one copy
of it (so re-caching a present hash moves it to the front rather than
duplicating it). -/
theorem C8_prev_states_cache_bounded_dedup (maxCached : Nat) (hmax : 1 ≤ maxCached)
    (calls : List Hash) (s : Hash) :
    (cacheSeq maxCached calls).length ≤ maxCached ∧
    (cacheSeq maxCached calls).Nodup ∧
    (cachePreviousStateHash maxCached s (cacheSeq maxCached calls)).head? = some s ∧
    (cachePreviousStateHash maxCached s (cacheSeq maxCached calls)).count s = 1 := by
  obtain ⟨hlen, hnd⟩ := cacheSeq_invariant maxCached hmax calls
  exact ⟨hlen, hnd, cachePreviousStateHash_head maxCached s _,
    cachePreviousStateHash_count maxCached s _ hnd⟩

/-- Witness for C8 at the default bound 50 and a concrete call sequence
in which the cached hash `b` is already present in the cache. -/
theorem C8_witness :
    (1 : Nat) ≤ 50 ∧
    ((cacheSeq 50 ["a", "b", "a"]).length ≤ 50 ∧
     (cacheSeq 50 ["a", "b", "a"]).Nodup ∧
     (cachePreviousStateHash 50 "b" (cacheSeq 50 ["a", "b", "a"])).head? = some "b" ∧
     (cachePreviousStateHash 50 "b" (cacheSeq 50 ["a", "b", "a"])).count "b" = 1) :=
  ⟨by decide, C8_prev_states_cache_bounded_dedup 50 (by decide) ["a", "b", "a"] "b"⟩

/-- C10: constructing an `UndoOp` whose `targetOp` is itself an
`UndoOp` always throws, and for a non-undo reversible `targetOp` the
constructor succeeds, storing `targetOp` (and `cascadeOf` when given) and
passing `target` and the singleton causal-op set to `super`. -/
theorem C10_undo_of_undo_throws (target : Option Hash) (targetOp : ReversibleOpRef)
    (cascadeOf : Option ReversibleOpRef) :
    (targetOp.isUndo = true →
      mkUndoOp target (some targetOp) cascadeOf =
        Except.error
          "an undo op cannot be undone this way, please just re-issue the original op") ∧
    (targetOp.isUndo = false →
      mkUndoOp target (some targetOp) cascadeOf =
        Except.ok { target := target, causalOps := some [targetOp],
                    targetOp := some targetOp, cascadeOf := cascadeOf }) := by
  constructor <;> intro h <;> simp [mkUndoOp, h]

/-- Witness for C10: an undo of an undo op throws; an undo of an ordinary
reversible op succeeds and stores both `targetOp` and `cascadeOf`. -/
theorem C10_witness :
    ((ReversibleOpRef.mk true "u").isUndo = true ∧
      mkUndoOp (some "T") (some (ReversibleOpRef.mk true "u")) none =
        Except.error
          "an undo op cannot be undone this way, please just re-issue the original op") ∧
    ((ReversibleOpRef.mk false "r").isUndo = false ∧
      mkUndoOp (some "T") (some (ReversibleOpRef.mk false "r"))
          (some (ReversibleOpRef.mk true "c")) =
        Except.ok { target := some "T",
                    causalOps := some [ReversibleOpRef.mk false "r"],
                    targetOp := some (ReversibleOpRef.mk false "r"),
                    cascadeOf := some (ReversibleOpRef.mk true "c") }) :=
  ⟨⟨rfl, (C10_undo_of_undo_throws (some "T") (ReversibleOpRef.mk true "u") none).1 rfl⟩,
   ⟨rfl, (C10_undo_of_undo_throws (some "T") (ReversibleOpRef.mk false "r")
      (some (ReversibleOpRef.mk true "c"))).2 rfl⟩⟩

/-- C4 (code bug): with `newStateErrorRetries = 3` and a
`receiveRemoteState` that throws on its first two calls and succeeds on
the third, the code in `notifyAgentOfStateArrival` fails (the single
unguarded retry throws and the exception escapes the loop), whereas the
retry discipline the claim describes would succeed on the third call. -/
theorem C4_retry_loop_gives_up_early :
    notifyAgentOfStateArrival 3 attemptsFailTwice = Except.error () ∧
    notifyRetrySpec 3 attemptsFailTwice = Except.ok true ∧
    attemptsFailTwice 2 = AttemptResult.ok true := by
  refine ⟨rfl, ?_, rfl⟩
  simp [notifyRetrySpec, notifyRetrySpecAux, attemptsFailTwice]

/-- C3 (code bug): at sweep time `now = 100`, the incomplete op `h1`
whose deadline 200 has not yet passed is evicted (and its reverse-index
pair removed), while the incomplete op `h2` whose deadline 50 has already
passed survives the sweep: the comparison `incompleteOp.timeout > now` in
the sweep is inverted with respect to the claimed eviction rule. -/
theorem C3_sweep_removes_unexpired_entries :
    sweepIncompleteOps 100
        [("h1", { source := "peerA", missingObjects := ["d1"], timeout := 200 }),
         ("h2", { source := "peerB", missingObjects := ["d2"], timeout := 50 })]
        [("d1", "h1"), ("d2", "h2")] =
      ([("h2", { source := "peerB", missingObjects := ["d2"], timeout := 50 })],
       [("d2", "h2")]) := by
  decide

lemma filter_not_sender_none (l : List Endpoint) :
    l.filter (fun p => (none : Option Endpoint) != some p) = l := by
  induction l with
  | nil => rfl
  | cons a t ih =>
    rw [List.filter_cons, if_pos (by rfl)]
    rw [ih]

lemma gossipTargetCount_eq (maxPeers : Nat) (params : GossipParams) (numPeers : Nat)
    (hfrac : 0 ≤ params.peerGossipFraction) :
    gossipTargetCount maxPeers params numPeers =
      min numPeers
        (max params.minGossipPeers
          (Int.ceil ((maxPeers : ℚ) * params.peerGossipFraction)).toNat) := by
  unfold gossipTargetCount
  have h0 : 0 ≤ Int.ceil ((maxPeers : ℚ) * params.peerGossipFraction) :=
    Int.ceil_nonneg (mul_nonneg (by positivity) hfrac)
  set c0 := Int.ceil ((maxPeers : ℚ) * params.peerGossipFraction) with hc0
  simp only []
  split_ifs <;> omega

/-- C5: on a local agent-state-update (no re-gossip sender to exclude,
local state object present), the gossip agent sends `send-state-object`
to exactly `min(peerCount, max(minGossipPeers, ceil(maxPeers * peerGossipFraction)))`
distinct peers taken from its current peer list. -/
theorem C5_gossip_budget (maxPeers : Nat) (params : GossipParams)
    (shuffledPeers : List Endpoint) (hfrac : 0 ≤ params.peerGossipFraction)
    (hnd : shuffledPeers.Nodup) :
    (gossipNewState maxPeers params shuffledPeers none true).length =
      min shuffledPeers.length
        (max params.minGossipPeers
          (Int.ceil ((maxPeers : ℚ) * params.peerGossipFraction)).toNat) ∧
    (gossipNewState maxPeers params shuffledPeers none true).Nodup ∧
    ∀ p ∈ gossipNewState maxPeers params shuffledPeers none true, p ∈ shuffledPeers := by
  have hsimp : gossipNewState maxPeers params shuffledPeers none true =
      shuffledPeers.take (gossipTargetCount maxPeers params shuffledPeers.length) := by
    unfold gossipNewState
    simp only [if_pos]
    exact filter_not_sender_none _
  refine ⟨?_, ?_, ?_⟩
  · rw [hsimp, List.length_take, gossipTargetCount_eq maxPeers params _ hfrac]
    omega
  · rw [hsimp]
    exact hnd.sublist (List.take_sublist _ _)
  · intro p hp
    rw [hsimp] at hp
    exact List.take_subset _ _ hp

/-- Witness for C5 at the S6 scenario: 10 connected peers, `maxPeers = 10`
and the default parameters (`peerGossipFraction = 0.2`,
`minGossipPeers = 4`) produce exactly 4 outbound `send-state-object`
messages. -/
theorem C5_witness :
    (gossipNewState 10 defaultGossipParams
        ["p0", "p1", "p2", "p3", "p4", "p5", "p6", "p7", "p8", "p9"]
        none true).length = 4 := by
  have h := C5_gossip_budget 10 defaultGossipParams
    ["p0", "p1", "p2", "p3", "p4", "p5", "p6", "p7", "p8", "p9"]
    (by norm_num [defaultGossipParams]) (by decide)
  rw [h.1]
  have hceil : Int.ceil ((10 : Nat) * defaultGossipParams.peerGossipFraction) = 2 := by
    rw [show ((10 : Nat) : ℚ) * defaultGossipParams.peerGossipFraction = ((2 : ℤ) : ℚ) by
      norm_num [defaultGossipParams]]
    exact Int.ceil_intCast 2
  rw [hceil]
  simp [defaultGossipParams]

/-- C7: when a received state object (that validates) is either in
the previous-states cache or reported not-new by the tracked agent, the
gossip agent replies with its own state object exactly when the received
state hash differs from the current local state hash; when the received
state equals the local state no reply is sent. -/
theorem C7_stale_state_self_heal (cache : List Hash) (notify : Except Unit Bool)
    (localStateHash : Option Hash) (stateHash : Hash)
    (hold : cache.contains stateHash = true ∨ notify = Except.ok false) :
    (localStateHash ≠ some stateHash →
      receiveStateObjectSendsOwnState true cache notify localStateHash true stateHash = true) ∧
    (localStateHash = some stateHash →
      receiveStateObjectSendsOwnState true cache notify localStateHash true stateHash = false) := by
  constructor
  · intro hne
    have hbeq : (localStateHash == some stateHash) = false := by
      simp [beq_eq_false_iff_ne, hne]
    rcases hold with hc | hn
    · have hc' : stateHash ∈ cache := by simpa using hc
      simp [receiveStateObjectSendsOwnState, hc', hbeq]
    · simp [receiveStateObjectSendsOwnState, hn, hbeq]
  · intro heq
    have hbeq : (localStateHash == some stateHash) = true := by
      simp [heq]
    simp [receiveStateObjectSendsOwnState, hbeq]

/-- Witness for C7: a received state whose hash `s` sits in the
previous-states cache triggers a reply when the local state hash is `t`,
and no reply when the local state hash is also `s`. -/
theorem C7_witness :
    receiveStateObjectSendsOwnState true ["s"] (Except.ok true) (some "t") true "s" = true ∧
    receiveStateObjectSendsOwnState true ["s"] (Except.ok true) (some "s") true "s" = false :=
  ⟨(C7_stale_state_self_heal ["s"] (Except.ok true) (some "t") "s"
      (Or.inl (by decide))).1 (by decide),
   (C7_stale_state_self_heal ["s"] (Except.ok true) (some "s") "s"
      (Or.inl (by decide))).2 rfl⟩

lemma processObjectRequest_sent (cfg : SyncAgentCfg) (store : StoreModel)
    (req : ObjectRequest) (h : processObjectRequest cfg store req = RequestOutcome.sent) :
    ∃ opHash, followDependencyChain store req.hash req.dependencyChain = ChainWalk.ok opHash ∧
      ∃ op, store.objects opHash = some op ∧ shouldAcceptMutationOp cfg op = true := by
  unfold processObjectRequest at h
  split at h
  · exact absurd h (by decide)
  · exact absurd h (by decide)
  · rename_i opHash hw
    split at h
    · exact absurd h (by decide)
    · rename_i op ho
      split at h
      · rename_i hacc
        exact ⟨opHash, hw, op, ho, hacc⟩
      · exact absurd h (by decide)

lemma tryToSendObjects_mem_sent (cfg : SyncAgentCfg) (store : StoreModel)
    (reqs : List ObjectRequest) :
    ∀ (acc : List Hash × List ObjectRequest) (h : Hash),
      h ∈ (reqs.foldl
        (fun acc req =>
          match processObjectRequest cfg store req with
          | RequestOutcome.sent => (acc.1 ++ [req.hash], acc.2)
          | RequestOutcome.sendLater => (acc.1, acc.2 ++ [req])
          | RequestOutcome.dropped => acc) acc).1 →
      h ∈ acc.1 ∨
        ∃ req ∈ reqs, req.hash = h ∧ processObjectRequest cfg store req = RequestOutcome.sent := by
  induction reqs with
  | nil => intro acc h hmem; exact Or.inl hmem
  | cons r rs ih =>
    intro acc h hmem
    rw [List.foldl_cons] at hmem
    rcases ih _ h hmem with hacc | ⟨req, hreq, hh, hs⟩
    · cases hp : processObjectRequest cfg store r with
      | sent =>
        simp only [hp] at hacc
        rcases List.mem_append.mp hacc with h1 | h2
        · exact Or.inl h1
        · refine Or.inr ⟨r, List.mem_cons_self r rs, ?_, hp⟩
          exact (List.mem_singleton.mp h2).symm
      | sendLater =>
        simp only [hp] at hacc
        exact Or.inl hacc
      | dropped =>
        simp only [hp] at hacc
        exact Or.inl hacc
    · exact Or.inr ⟨req, List.mem_cons_of_mem r hreq, hh, hs⟩

/-- C1: a root object is serialized into the `send-objs` reply of
`tryToSendObjects` only for a request whose `dependencyChain` walks, link
by link, from the requested hash up through locally stored literals (each
link hash appearing in the next literal dependency list) to an op that is
loaded from the store and passes `shouldAcceptMutationOp`; requests whose
chain fails validation contribute nothing to the reply. -/
theorem C1_send_objs_requires_valid_chain (cfg : SyncAgentCfg) (store : StoreModel)
    (requestedObjects : List ObjectRequest) (h : Hash)
    (hmem : h ∈ (tryToSendObjects cfg store requestedObjects).1) :
    ∃ req ∈ requestedObjects, req.hash = h ∧
      ∃ opHash, followDependencyChain store h req.dependencyChain = ChainWalk.ok opHash ∧
        ∃ op, store.objects opHash = some op ∧ shouldAcceptMutationOp cfg op = true := by
  unfold tryToSendObjects at hmem
  rcases tryToSendObjects_mem_sent cfg store requestedObjects ([], []) h hmem with
    habs | ⟨req, hreq, hh, hs⟩
  · exact absurd habs (List.not_mem_nil h)
  · obtain ⟨opHash, hw, op, ho, hacc⟩ := processObjectRequest_sent cfg store req hs
    exact ⟨req, hreq, hh, opHash, hh ▸ hw, op, ho, hacc⟩

/-- Witness for C1: a store holding an accepted op `o1` (target `T`,
class `c`) whose literal lists `d1` as dependency; the request for `d1`
with chain `[o1]` is answered, and the existence part of C1 holds at it. -/
theorem C1_witness :
    ∃ req ∈ [ObjectRequest.mk "d1" ["o1"]], req.hash = "d1" ∧
      ∃ opHash,
        followDependencyChain
          { literals := fun h => if h = "o1" then
              some { dependencies := [{ hash := "d1", depType := "subobject" }] } else none,
            objects := fun h => if h = "o1" then
              some { className := "c", targetObjectHash := some "T" }
            else if h = "d1" then
              some { className := "x", targetObjectHash := none }
            else none }
          "d1" req.dependencyChain = ChainWalk.ok opHash ∧
        ∃ op,
          StoreModel.objects
            { literals := fun h => if h = "o1" then
                some { dependencies := [{ hash := "d1", depType := "subobject" }] } else none,
              objects := fun h => if h = "o1" then
                some { className := "c", targetObjectHash := some "T" }
              else if h = "d1" then
                some { className := "x", targetObjectHash := none }
              else none }
            opHash = some op ∧
          shouldAcceptMutationOp { objHash := "T", acceptedMutationOpClasses := ["c"] } op = true :=
  C1_send_objs_requires_valid_chain
    { objHash := "T", acceptedMutationOpClasses := ["c"] }
    { literals := fun h => if h = "o1" then
        some { dependencies := [{ hash := "d1", depType := "subobject" }] } else none,
      objects := fun h => if h = "o1" then
        some { className := "c", targetObjectHash := some "T" }
      else if h = "d1" then
        some { className := "x", targetObjectHash := none }
      else none }
    [ObjectRequest.mk "d1" ["o1"]] "d1" (by decide)

lemma processMissingDeps_eq (storeHolds : Hash → Bool)
    (keyedHash : Hash → Option String → Hash) (pr : Hash → Option Hash)
    (secret : Option String) (missingDeps : List (Hash × List Hash)) :
    processMissingDeps storeHolds keyedHash pr secret missingDeps =
      (missingDeps.filterMap (fun d =>
         if !(storeHolds d.1) || (some (keyedHash d.1 secret) != pr d.1) then
           some { hash := d.1, dependencyChain := d.2 } else none),
       missingDeps.filterMap (fun d =>
         if !(storeHolds d.1) || (some (keyedHash d.1 secret) != pr d.1) then
           none else some d.1)) := by
  unfold processMissingDeps
  suffices haux : ∀ (deps : List (Hash × List Hash)) (acc : List ObjectRequest × List Hash),
      deps.foldl
        (fun acc dep =>
          if !(storeHolds dep.1) || (some (keyedHash dep.1 secret) != pr dep.1) then
            (acc.1 ++ [{ hash := dep.1, dependencyChain := dep.2 }], acc.2)
          else
            (acc.1, acc.2 ++ [dep.1])) acc =
      (acc.1 ++ deps.filterMap (fun d =>
         if !(storeHolds d.1) || (some (keyedHash d.1 secret) != pr d.1) then
           some { hash := d.1, dependencyChain := d.2 } else none),
       acc.2 ++ deps.filterMap (fun d =>
         if !(storeHolds d.1) || (some (keyedHash d.1 secret) != pr d.1) then
           none else some d.1)) by
    rw [haux missingDeps ([], [])]
    simp
  intro deps
  induction deps with
  | nil => intro acc; simp
  | cons d ds ih =>
    intro acc
    rw [List.foldl_cons]
    by_cases hc : (!(storeHolds d.1) || (some (keyedHash d.1 secret) != pr d.1)) = true
    · have h1 : (d :: ds).filterMap (fun d =>
          if !(storeHolds d.1) || (some (keyedHash d.1 secret) != pr d.1) then
            some ({ hash := d.1, dependencyChain := d.2 } : ObjectRequest) else none) =
          ({ hash := d.1, dependencyChain := d.2 } : ObjectRequest) ::
            ds.filterMap (fun d =>
              if !(storeHolds d.1) || (some (keyedHash d.1 secret) != pr d.1) then
                some ({ hash := d.1, dependencyChain := d.2 } : ObjectRequest) else none) := by
        rw [List.filterMap_cons, if_pos hc]
      have h2 : (d :: ds).filterMap (fun d =>
          if !(storeHolds d.1) || (some (keyedHash d.1 secret) != pr d.1) then
            none else some d.1) =
          ds.filterMap (fun d =>
            if !(storeHolds d.1) || (some (keyedHash d.1 secret) != pr d.1) then
              none else some d.1) := by
        rw [List.filterMap_cons, if_pos hc]
      rw [if_pos hc, ih, h1, h2]
      simp [List.append_assoc]
    · have hcf : ¬((!(storeHolds d.1) || (some (keyedHash d.1 secret) != pr d.1)) = true) := hc
      have h1 : (d :: ds).filterMap (fun d =>
          if !(storeHolds d.1) || (some (keyedHash d.1 secret) != pr d.1) then
            some ({ hash := d.1, dependencyChain := d.2 } : ObjectRequest) else none) =
          ds.filterMap (fun d =>
            if !(storeHolds d.1) || (some (keyedHash d.1 secret) != pr d.1) then
              some ({ hash := d.1, dependencyChain := d.2 } : ObjectRequest) else none) := by
        rw [List.filterMap_cons, if_neg hcf]
      have h2 : (d :: ds).filterMap (fun d =>
          if !(storeHolds d.1) || (some (keyedHash d.1 secret) != pr d.1) then
            none else some d.1) =
          d.1 :: ds.filterMap (fun d =>
            if !(storeHolds d.1) || (some (keyedHash d.1 secret) != pr d.1) then
              none else some d.1) := by
        rw [List.filterMap_cons, if_neg hcf]
      rw [if_neg hcf, ih, h1, h2]
      simp [List.append_assoc]

/-- C2: in `receiveObjects`, a missing transitive dependency of a
root is folded into the context exactly when the receiver store already
holds it and the supplied ownership proof equals the keyed hash of the
stored value under the request secret; in every other case it is
re-requested with the extended dependency chain and never folded in. -/
theorem C2_ownership_proof_dichotomy (storeHolds : Hash → Bool)
    (keyedHash : Hash → Option String → Hash) (ownershipProofForHash : Hash → Option Hash)
    (secret : Option String) (missingDeps : List (Hash × List Hash))
    (hnodup : (missingDeps.map Prod.fst).Nodup) (dep : Hash × List Hash)
    (hdep : dep ∈ missingDeps) :
    (storeHolds dep.1 = true ∧ ownershipProofForHash dep.1 = some (keyedHash dep.1 secret) →
      dep.1 ∈ (processMissingDeps storeHolds keyedHash ownershipProofForHash secret missingDeps).2 ∧
      ∀ r ∈ (processMissingDeps storeHolds keyedHash ownershipProofForHash secret missingDeps).1,
        r.hash ≠ dep.1) ∧
    (¬(storeHolds dep.1 = true ∧ ownershipProofForHash dep.1 = some (keyedHash dep.1 secret)) →
      ({ hash := dep.1, dependencyChain := dep.2 } : ObjectRequest) ∈
        (processMissingDeps storeHolds keyedHash ownershipProofForHash secret missingDeps).1 ∧
      dep.1 ∉
        (processMissingDeps storeHolds keyedHash ownershipProofForHash secret missingDeps).2) := by
  have hcond : ∀ d : Hash × List Hash,
      (!(storeHolds d.1) || (some (keyedHash d.1 secret) != ownershipProofForHash d.1)) = false ↔
      (storeHolds d.1 = true ∧ ownershipProofForHash d.1 = some (keyedHash d.1 secret)) := by
    intro d
    constructor
    · intro h
      rcases Bool.or_eq_false_iff.mp h with ⟨h1, h2⟩
      refine ⟨by simpa using h1, ?_⟩
      exact (bne_eq_false_iff_eq.mp h2).symm
    · intro ⟨h1, h2⟩
      apply Bool.or_eq_false_iff.mpr
      refine ⟨by simp [h1], ?_⟩
      exact bne_eq_false_iff_eq.mpr h2.symm
  have hinj : ∀ d ∈ missingDeps, ∀ d' ∈ missingDeps, d.1 = d'.1 → d = d' := by
    intro a ha b hb hab
    exact List.inj_on_of_nodup_map hnodup ha hb hab
  rw [processMissingDeps_eq]
  constructor
  · intro hgood
    have hcf : (!(storeHolds dep.1) ||
        (some (keyedHash dep.1 secret) != ownershipProofForHash dep.1)) = false :=
      (hcond dep).mpr hgood
    constructor
    · exact List.mem_filterMap.mpr ⟨dep, hdep, by simp [hcf]⟩
    · intro r hr hrh
      obtain ⟨d, hd, hfd⟩ := List.mem_filterMap.mp hr
      by_cases hcd : (!(storeHolds d.1) ||
          (some (keyedHash d.1 secret) != ownershipProofForHash d.1)) = true
      · rw [if_pos hcd] at hfd
        have hdh : d.1 = dep.1 := by
          have hxr := Option.some.inj hfd
          rw [← hxr] at hrh
          exact hrh
        have : d = dep := hinj d hd dep hdep hdh
        rw [this] at hcd
        rw [hcf] at hcd
        exact absurd hcd (by decide)
      · simp only [Bool.not_eq_true] at hcd
        rw [if_neg (by simp [hcd])] at hfd
        exact absurd hfd (by simp)
  · intro hbad
    have hct : (!(storeHolds dep.1) ||
        (some (keyedHash dep.1 secret) != ownershipProofForHash dep.1)) = true := by
      by_contra hc
      simp only [Bool.not_eq_true] at hc
      exact hbad ((hcond dep).mp hc)
    constructor
    · exact List.mem_filterMap.mpr ⟨dep, hdep, by simp [hct]⟩
    · intro hmem
      obtain ⟨d, hd, hfd⟩ := List.mem_filterMap.mp hmem
      by_cases hcd : (!(storeHolds d.1) ||
          (some (keyedHash d.1 secret) != ownershipProofForHash d.1)) = true
      · rw [if_pos hcd] at hfd
        exact absurd hfd (by simp)
      · simp only [Bool.not_eq_true] at hcd
        rw [if_neg (by simp [hcd])] at hfd
        have hdh : d.1 = dep.1 := by simpa using hfd
        have : d = dep := hinj d hd dep hdep hdh
        rw [this] at hcd
        rw [hct] at hcd
        exact absurd hcd (by decide)

/-- Witness for C2: dependency `i` is held with a matching proof and is
folded into the context, while dependency `m` is not held and is
re-requested with its extended chain, never folded in. -/
theorem C2_witness :
    (("i" : Hash) ∈ (processMissingDeps (fun h => h == "i") (fun h _ => h ++ "k")
        (fun h => if h = "i" then some "ik" else none) (some "sec")
        [("i", ["o1"]), ("m", ["o1"])]).2 ∧
      ∀ r ∈ (processMissingDeps (fun h => h == "i") (fun h _ => h ++ "k")
        (fun h => if h = "i" then some "ik" else none) (some "sec")
        [("i", ["o1"]), ("m", ["o1"])]).1, r.hash ≠ "i") ∧
    (({ hash := "m", dependencyChain := ["o1"] } : ObjectRequest) ∈
        (processMissingDeps (fun h => h == "i") (fun h _ => h ++ "k")
          (fun h => if h = "i" then some "ik" else none) (some "sec")
          [("i", ["o1"]), ("m", ["o1"])]).1 ∧
      ("m" : Hash) ∉ (processMissingDeps (fun h => h == "i") (fun h _ => h ++ "k")
        (fun h => if h = "i" then some "ik" else none) (some "sec")
        [("i", ["o1"]), ("m", ["o1"])]).2) :=
  ⟨(C2_ownership_proof_dichotomy (fun h => h == "i") (fun h _ => h ++ "k")
      (fun h => if h = "i" then some "ik" else none) (some "sec")
      [("i", ["o1"]), ("m", ["o1"])] (by decide) ("i", ["o1"]) (by decide)).1
      ⟨by decide, by decide⟩,
   (C2_ownership_proof_dichotomy (fun h => h == "i") (fun h _ => h ++ "k")
      (fun h => if h = "i" then some "ik" else none) (some "sec")
      [("i", ["o1"]), ("m", ["o1"])] (by decide) ("m", ["o1"]) (by decide)).2
      (by decide)⟩

lemma foldl_preserves {α β : Type} (P : α → Prop) (f : α → β → α)
    (hf : ∀ a b, P a → P (f a b)) :
    ∀ (l : List β) (a : α), P a → P (l.foldl f a) := by
  intro l
  induction l with
  | nil => intro a ha; exact ha
  | cons b t ih =>
    intro a ha
    rw [List.foldl_cons]
    exact ih (f a b) (hf a b ha)

lemma lookup_isNone_not_mem (l : EndpointMovements) (e : Endpoint)
    (h : (l.lookup e).isSome = false) : e ∉ l.map Prod.fst := by
  induction l with
  | nil => simp
  | cons p t ih =>
    obtain ⟨k, v⟩ := p
    cases hp : e == k with
    | true =>
      simp [List.lookup, hp] at h
    | false =>
      simp only [List.lookup, hp] at h
      simp only [List.map_cons, List.mem_cons]
      rintro (rfl | hm)
      · simp at hp
      · exact ih h hm

lemma insertObjectMovement_inv (m : ObjectMovementsModel) (e : Endpoint) (oh : Hash)
    (chain : List Hash) (secret : String) (timeout now : Int)
    (h1 : ∀ h, ((m h).map Prod.fst).Nodup) (h2 : ∀ h, (m h).length ≤ 2)
    (hlen : (m oh).length < 2) :
    (∀ h, (((insertObjectMovement m e oh chain secret timeout now).2 h).map Prod.fst).Nodup) ∧
    (∀ h, ((insertObjectMovement m e oh chain secret timeout now).2 h).length ≤ 2) := by
  unfold insertObjectMovement
  by_cases hl : ((m oh).lookup e).isSome = true
  · simp only [hl, if_true]
    exact ⟨h1, h2⟩
  · simp only [Bool.not_eq_true] at hl
    have hcond : ¬(((m oh).lookup e).isSome = true) := by simp [hl]
    rw [if_neg hcond]
    have hnotmem : e ∉ (m oh).map Prod.fst := lookup_isNone_not_mem (m oh) e hl
    constructor
    · intro h
      dsimp only
      by_cases hh : h = oh
      · subst hh
        rw [if_pos rfl, List.map_append]
        refine List.Nodup.append (h1 h) (List.nodup_singleton e) ?_
        intro a ha hae
        have hae' : a = e := by simpa using hae
        exact hnotmem (hae' ▸ ha)
      · rw [if_neg hh]
        exact h1 h
    · intro h
      dsimp only
      by_cases hh : h = oh
      · subst hh
        rw [if_pos rfl, List.length_append]
        simp only [List.length_singleton]
        omega
      · rw [if_neg hh]
        exact h2 h

lemma sendRequestObjsStep_inv (destination : Endpoint) (secret : String)
    (receiveTimeout now : Int) (acc : ObjectMovementsModel × List ObjectRequest)
    (req : ObjectRequest)
    (hinv : (∀ h, ((acc.1 h).map Prod.fst).Nodup) ∧ (∀ h, (acc.1 h).length ≤ 2)) :
    (∀ h, (((sendRequestObjsStep destination secret receiveTimeout now acc req).1 h).map
        Prod.fst).Nodup) ∧
    (∀ h, ((sendRequestObjsStep destination secret receiveTimeout now acc req).1 h).length ≤ 2) := by
  obtain ⟨h1, h2⟩ := hinv
  unfold sendRequestObjsStep
  by_cases hg : (!((acc.1 req.hash).lookup destination).isSome &&
      decide ((acc.1 req.hash).length < 2)) = true
  · rw [if_pos hg]
    have hlen : (acc.1 req.hash).length < 2 :=
      of_decide_eq_true (Bool.and_eq_true_iff.mp hg).2
    have hins := insertObjectMovement_inv acc.1 destination req.hash req.dependencyChain
      secret receiveTimeout now h1 h2 hlen
    by_cases hr : (insertObjectMovement acc.1 destination req.hash req.dependencyChain
        secret receiveTimeout now).1 = true
    · rw [if_pos hr]
      exact hins
    · rw [if_neg hr]
      exact hins
  · rw [if_neg hg]
    exact ⟨h1, h2⟩

/-- C6: `sendRequestObjsMessage` preserves the backpressure
invariant of `incomingObjects`: every hash has at most two pending
incoming entries across distinct peers, and for every hash each endpoint
appears at most once (a second request for the same hash to the same
peer is skipped while one is pending, and a hash with two pending entries
is skipped). -/
theorem C6_request_backpressure (incoming : ObjectMovementsModel)
    (destination : Endpoint) (secret : String) (receiveTimeout now : Int)
    (reqs : List ObjectRequest)
    (hnd : ∀ h, ((incoming h).map Prod.fst).Nodup)
    (hcap : ∀ h, (incoming h).length ≤ 2) :
    (∀ h, (((sendRequestObjsMessage incoming destination secret receiveTimeout now reqs).1 h).map
        Prod.fst).Nodup) ∧
    (∀ h, ((sendRequestObjsMessage incoming destination secret receiveTimeout now
        reqs).1 h).length ≤ 2) := by
  unfold sendRequestObjsMessage
  exact foldl_preserves
    (fun acc => (∀ h, ((acc.1 h).map Prod.fst).Nodup) ∧ (∀ h, (acc.1 h).length ≤ 2))
    (sendRequestObjsStep destination secret receiveTimeout now)
    (fun acc req hinv => sendRequestObjsStep_inv destination secret receiveTimeout now
      acc req hinv)
    reqs (incoming, []) ⟨hnd, hcap⟩

/-- Witness for C6: starting from a table already holding one pending
entry for `h1` (from endpoint `e0`), three requests for `h1` towards
endpoint `e1` leave at most two pending entries for `h1`, each endpoint
appearing once. -/
theorem C6_witness :
    ((((sendRequestObjsMessage
        (fun h => if h = "h1" then
          [("e0", { dependencyChain := [], secret := "s0", timeout := 0 })] else [])
        "e1" "sec" 90 0
        [ObjectRequest.mk "h1" [], ObjectRequest.mk "h1" [], ObjectRequest.mk "h1" []]).1
        "h1").map Prod.fst).Nodup) ∧
    ((sendRequestObjsMessage
        (fun h => if h = "h1" then
          [("e0", { dependencyChain := [], secret := "s0", timeout := 0 })] else [])
        "e1" "sec" 90 0
        [ObjectRequest.mk "h1" [], ObjectRequest.mk "h1" [], ObjectRequest.mk "h1" []]).1
        "h1").length ≤ 2 := by
  have h := C6_request_backpressure
    (fun h => if h = "h1" then
      [("e0", { dependencyChain := [], secret := "s0", timeout := 0 })] else [])
    "e1" "sec" 90 0
    [ObjectRequest.mk "h1" [], ObjectRequest.mk "h1" [], ObjectRequest.mk "h1" []]
    (by
      intro hh
      by_cases hcase : hh = "h1"
      · simp [hcase]
      · simp [hcase])
    (by
      intro hh
      by_cases hcase : hh = "h1"
      · simp [hcase]
      · simp [hcase])
  exact ⟨h.1 "h1", h.2 "h1"⟩

lemma receiveRemoteStateLoop_eq (cfg : SyncAgentCfg) (store : StoreModel)
    (incompleteOps : List Hash) (terminalOps : List Hash) :
    receiveRemoteStateLoop cfg store incompleteOps terminalOps =
      (terminalOps.filter
         (fun h => !(incompleteOps.contains h) && (store.objects h).isNone),
       terminalOps.any
         (fun h => !(incompleteOps.contains h) &&
           ((store.objects h).map (fun op => !(shouldAcceptMutationOp cfg op))).getD false)) := by
  unfold receiveRemoteStateLoop
  suffices haux : ∀ (ops : List Hash) (acc : List Hash × Bool),
      ops.foldl
        (fun acc opHash =>
          if incompleteOps.contains opHash then acc
          else
            match store.objects opHash with
            | none => (acc.1 ++ [opHash], acc.2)
            | some op => (acc.1, acc.2 || !(shouldAcceptMutationOp cfg op))) acc =
      (acc.1 ++ ops.filter
         (fun h => !(incompleteOps.contains h) && (store.objects h).isNone),
       acc.2 || ops.any
         (fun h => !(incompleteOps.contains h) &&
           ((store.objects h).map (fun op => !(shouldAcceptMutationOp cfg op))).getD false)) by
    rw [haux terminalOps ([], false)]
    simp
  intro ops
  induction ops with
  | nil => intro acc; simp
  | cons h t ih =>
    intro acc
    rw [List.foldl_cons]
    by_cases hc : incompleteOps.contains h = true
    · rw [if_pos hc, ih]
      have hmem : h ∈ incompleteOps := by simpa using hc
      rw [List.filter_cons, List.any_cons]
      simp [hmem]
    · have hcf : ¬(incompleteOps.contains h = true) := hc
      rw [if_neg hcf]
      have hnotmem : h ∉ incompleteOps := by
        simp only [Bool.not_eq_true] at hc
        simpa using hc
      cases ho : store.objects h with
      | none =>
        rw [ih]
        rw [List.filter_cons, List.any_cons]
        simp [hnotmem, ho, List.append_assoc]
      | some op =>
        rw [ih]
        rw [List.filter_cons, List.any_cons]
        simp [hnotmem, ho, Bool.or_assoc]

/-- C9 (amended): `receiveRemoteState` with a full state object whose
hash matches the advertised one returns `true` only if at least one of
the peer terminal ops is absent both from the local store and from the
`incompleteOps` table, and no already-stored terminal op *outside the
`incompleteOps` table* fails `shouldAcceptMutationOp`; it returns `false`
for a valid state all of whose terminal ops are already held locally, and
with an undefined state object it returns `false`, sending a
`request-state` message when the advertised hash differs from our own. -/
theorem C9_receive_remote_state (cfg : SyncAgentCfg) (store : StoreModel)
    (incompleteOps : List Hash) (localStateHash : Option Hash)
    (advertisedStateHash : Hash) (st : TerminalOpsStateModel) :
    ((terminalOpsReceiveRemoteState cfg store incompleteOps localStateHash
        advertisedStateHash (some st)).1 = true →
      st.terminalOps.any
        (fun h => !(incompleteOps.contains h) && (store.objects h).isNone) = true ∧
      st.terminalOps.all
        (fun h => incompleteOps.contains h ||
          ((store.objects h).map (shouldAcceptMutationOp cfg)).getD true) = true) ∧
    (st.terminalOps.all (fun h => (store.objects h).isSome) = true →
      (terminalOpsReceiveRemoteState cfg store incompleteOps localStateHash
        advertisedStateHash (some st)).1 = false) ∧
    ((terminalOpsReceiveRemoteState cfg store incompleteOps localStateHash
        advertisedStateHash none).1 = false ∧
     (some advertisedStateHash ≠ localStateHash →
       (terminalOpsReceiveRemoteState cfg store incompleteOps localStateHash
         advertisedStateHash none).2 = [SyncMsg.requestState])) := by
  refine ⟨?_, ?_, ?_, ?_⟩
  · intro htrue
    simp only [terminalOpsReceiveRemoteState] at htrue
    by_cases hh : (st.stateHash != advertisedStateHash) = true
    · rw [if_pos hh] at htrue
      exact absurd htrue (by decide)
    · rw [if_neg hh] at htrue
      simp only [receiveRemoteStateLoop_eq] at htrue
      obtain ⟨hlen, hbad⟩ := Bool.and_eq_true_iff.mp htrue
      have hlen' : 0 < (st.terminalOps.filter
          (fun h => !(incompleteOps.contains h) && (store.objects h).isNone)).length :=
        of_decide_eq_true hlen
      have hbad' : st.terminalOps.any
          (fun h => !(incompleteOps.contains h) &&
            ((store.objects h).map (fun op => !(shouldAcceptMutationOp cfg op))).getD false)
          = false := by
        cases hb : st.terminalOps.any
            (fun h => !(incompleteOps.contains h) &&
              ((store.objects h).map (fun op => !(shouldAcceptMutationOp cfg op))).getD false)
        · rfl
        · rw [hb] at hbad
          exact absurd hbad (by decide)
      constructor
      · obtain ⟨x, hx⟩ := List.exists_mem_of_length_pos hlen'
        obtain ⟨hxops, hxpred⟩ := List.mem_filter.mp hx
        exact List.any_eq_true.mpr ⟨x, hxops, hxpred⟩
      · rw [List.all_eq_true]
        intro h hmem
        have hpred : (!(incompleteOps.contains h) &&
            ((store.objects h).map (fun op => !(shouldAcceptMutationOp cfg op))).getD false)
            = false := by
          simpa using (List.any_eq_false.mp hbad') h hmem
        cases hc : incompleteOps.contains h
        · rw [hc] at hpred
          simp only [Bool.not_false, Bool.true_and] at hpred
          cases ho : store.objects h with
          | none => simp [hc, ho]
          | some op =>
            rw [ho] at hpred
            simp only [Option.map_some', Option.getD_some] at hpred
            have hacc : shouldAcceptMutationOp cfg op = true := by simpa using hpred
            simp [hc, ho, hacc]
        · simp [hc]
  · intro hall
    simp only [terminalOpsReceiveRemoteState]
    by_cases hh : (st.stateHash != advertisedStateHash) = true
    · rw [if_pos hh]
    · rw [if_neg hh]
      have hfil : st.terminalOps.filter
          (fun h => !(incompleteOps.contains h) && (store.objects h).isNone) = [] := by
        rw [List.filter_eq_nil_iff]
        intro a ha
        have hsome : (store.objects a).isSome = true := List.all_eq_true.mp hall a ha
        cases hobj : store.objects a with
        | none => rw [hobj] at hsome; exact absurd hsome (by decide)
        | some v => simp [hobj]
      simp only [receiveRemoteStateLoop_eq, hfil]
      simp
  · unfold terminalOpsReceiveRemoteState
    by_cases hb : (some advertisedStateHash != localStateHash) = true
    · rw [if_pos hb]
    · rw [if_neg hb]
  · intro hne
    simp only [terminalOpsReceiveRemoteState]
    have hb : (some advertisedStateHash != localStateHash) = true := bne_iff_ne.mpr hne
    rw [if_pos hb]

/-- Counterexample for C9 as stated: with `a` both stored (with an
unacceptable class) and present in `incompleteOps`, and `b` absent, the
call returns `true` even though the already-stored terminal op `a` fails
`shouldAcceptMutationOp`. -/
theorem C9_counterexample :
    ¬ ((terminalOpsReceiveRemoteState
          { objHash := "T", acceptedMutationOpClasses := ["good"] }
          { literals := fun _ => none,
            objects := fun h => if h = "a" then
              some { className := "bad", targetObjectHash := some "T" } else none }
          ["a"] (some "x") "s"
          (some { stateHash := "s", terminalOps := ["a", "b"] })).1 = true →
        (["a", "b"] : List Hash).any
          (fun h => !((["a"] : List Hash).contains h) &&
            (StoreModel.objects
              { literals := fun _ => none,
                objects := fun h => if h = "a" then
                  some { className := "bad", targetObjectHash := some "T" } else none }
              h).isNone) = true ∧
        (["a", "b"] : List Hash).all
          (fun h =>
            ((StoreModel.objects
              { literals := fun _ => none,
                objects := fun h => if h = "a" then
                  some { className := "bad", targetObjectHash := some "T" } else none }
              h).map
              (shouldAcceptMutationOp
                { objHash := "T", acceptedMutationOpClasses := ["good"] })).getD true)
          = true) := by
  decide

/-- Witness for C9: a peer terminal op `c` absent from an empty store and
from `incompleteOps` makes the call return `true` (yielding the amended
conclusions), and with no state object the agent answers a differing
advertised hash with `request-state`. -/
theorem C9_witness :
    ((["c"] : List Hash).any
        (fun h => !(([] : List Hash).contains h) &&
          (StoreModel.objects { literals := fun _ => none, objects := fun _ => none } h).isNone)
        = true ∧
     (["c"] : List Hash).all
        (fun h => ([] : List Hash).contains h ||
          ((StoreModel.objects { literals := fun _ => none, objects := fun _ => none } h).map
            (shouldAcceptMutationOp
              { objHash := "T", acceptedMutationOpClasses := ["good"] })).getD true)
        = true) ∧
    (terminalOpsReceiveRemoteState
      { objHash := "T", acceptedMutationOpClasses := ["good"] }
      { literals := fun _ => none, objects := fun _ => none }
      [] (some "x") "s" none).2 = [SyncMsg.requestState] :=
  ⟨(C9_receive_remote_state
      { objHash := "T", acceptedMutationOpClasses := ["good"] }
      { literals := fun _ => none, objects := fun _ => none }
      [] (some "x") "s" { stateHash := "s", terminalOps := ["c"] }).1 (by decide),
   (C9_receive_remote_state
      { objHash := "T", acceptedMutationOpClasses := ["good"] }
      { literals := fun _ => none, objects := fun _ => none }
      [] (some "x") "s" { stateHash := "s", terminalOps := ["c"] }).2.2.2 (by decide)⟩

end HHS
